import Mathlib

/-!
# Math2D: a shallow embedding of `math2d.h`

The header defines three value templates over a scalar type `T`
(`vector<T>`, `point<T>`, `rect<T>`) and a handful of scalar helpers.
Each C++ function is transcribed as a Lean function of the same name.

Conventions of the embedding:

* the scalar type `T` is a Lean type `α` carrying the arithmetic and order
  operations the function body uses (exact arithmetic: `Int`, `ℚ`, `ℝ`);
* where the width of an integer type matters (`rect::width`, `rect::height`), the
  type is an `IntType` and its values are the `Int`s in its range; unsigned
  arithmetic wraps and undefined behaviour is the result `none`;
* `static_cast<T>(e)` is `StaticCast.cast e`; between equal types it is the
  identity;
* a method that mutates `*this` and returns `*this` is a function from the
  receiver before the call to the receiver after the call;
* functions of `<cmath>` and `<limits>` that the header calls but does not
  define (`sqrt`, `cos`, `sin`, `numeric_limits<T>::epsilon()`) are
  parameters of the functions that call them.
-/

namespace Math2D

/-- The conversion `static_cast<T>(e)` from an operand type `β` to `α`. -/
class StaticCast (β α : Type) where
  /-- The converted value. -/
  cast : β → α

/-- Converting a value to its own type changes nothing. -/
instance instStaticCastSelf (α : Type) : StaticCast α α := ⟨fun a => a⟩

/-- The conversion of a fractional value to an integer type discards the fractional
part (truncation toward zero); the fractional type is modelled by `ℚ`. -/
def truncate (q : ℚ) : Int := Int.tdiv q.num q.den

/-- The conversion `static_cast<int>(e)` of a fractional `e`. -/
instance instStaticCastRatInt : StaticCast ℚ Int := ⟨truncate⟩

/-! ## Scalar utilities -/

/-- The function template `pi<T>()`: `static_cast<T>(3.1415926536)`. -/
def pi {α : Type} [StaticCast ℚ α] : α :=
  StaticCast.cast (31415926536 / 10000000000 : ℚ)

/-- The `<cmath>` function `fabs`, in exact arithmetic: the absolute value. -/
def fabs {α : Type} [LinearOrderedRing α] (v : α) : α := |v|

/-- The function template `abs<T>`: `static_cast<T>(fabs(pVal))`. -/
def abs {α : Type} [LinearOrderedRing α] (pVal : α) : α :=
  StaticCast.cast (fabs pVal)

/-- The function template `sqr<T>`: `pVal * pVal`. -/
def sqr {α : Type} [Mul α] (pVal : α) : α := pVal * pVal

/-- A fixed-width integer scalar type of the source: its signedness and its number
of bits. A value of the type is an `Int` inside `minValue .. maxValue`. -/
structure IntType where
  signed : Bool
  bits : Nat
deriving DecidableEq, Repr

/-- The type `int`: signed, 32 bits. -/
def IntType.int : IntType := ⟨true, 32⟩

/-- The type `unsigned int`: unsigned, 32 bits. -/
def IntType.unsigned : IntType := ⟨false, 32⟩

/-- The type `long long`: signed, 64 bits. -/
def IntType.long_long : IntType := ⟨true, 64⟩

/-- The type `size_t`: unsigned, 64 bits. -/
def IntType.size_t : IntType := ⟨false, 64⟩

/-- The least value of the type. -/
def IntType.minValue (t : IntType) : Int :=
  if t.signed then -(2 ^ (t.bits - 1)) else 0

/-- The greatest value of the type. -/
def IntType.maxValue (t : IntType) : Int :=
  if t.signed then 2 ^ (t.bits - 1) - 1 else 2 ^ t.bits - 1

/-- Whether the integer `v` is a value of the type. -/
def IntType.inRange (t : IntType) (v : Int) : Bool :=
  decide (t.minValue ≤ v ∧ v ≤ t.maxValue)

/-- The conversion of an integer to an unsigned type, and the result of unsigned
arithmetic: the value modulo `2 ^ bits`. -/
def IntType.wrap (t : IntType) (v : Int) : Int := v % 2 ^ t.bits

/-- The subtraction `a - b` in the type `t`, for `t` at least as wide as `int` (so
that no promotion takes place): an unsigned type wraps; in a signed type a
difference outside the type is undefined behaviour (`none`). -/
def IntType.sub (t : IntType) (a b : Int) : Option Int :=
  if t.signed then (if t.inRange (a - b) then some (a - b) else none)
  else some (t.wrap (a - b))

/-- The conversion of an integer to `double`: every integer of magnitude at most
`2 ^ 53` is kept; a larger one is rounded to 53 significant bits, to nearest, ties
to even. The result is again an integer, so it is given as an `Int`. -/
def toDouble (v : Int) : Int :=
  let n : Nat := v.natAbs
  if n ≤ 2 ^ 53 then v
  else
    let e : Nat := Nat.log2 n - 52
    let q : Nat := n / 2 ^ e
    let r : Nat := n % 2 ^ e
    let half : Nat := 2 ^ (e - 1)
    let m : Nat := if r > half ∨ (r = half ∧ q % 2 = 1) then q + 1 else q
    Int.sign v * ((m * 2 ^ e : Nat) : Int)

/-- The function template `abs<T>` at an integer type `T`:
`static_cast<T>(fabs(pVal))`. The argument is converted to `double` for `fabs`; the
conversion of the result back to `T` is undefined behaviour (`none`) when it is not
a value of `T`. -/
def IntType.abs (t : IntType) (pVal : Int) : Option Int :=
  let f : Int := |toDouble pVal|
  if t.inRange f then some f else none

/-- An operand of a built-in arithmetic operator in the body of `rad` and `deg`:
either a number, or the name of a function template that is not followed by a
call. -/
inductive Operand (β : Type) where
  | number (v : β) : Operand β
  | function_template : Operand β
deriving DecidableEq, Repr

/-- The built-in `*`: it is defined between two numbers only; with the name of a
function template as an operand the expression is ill-formed and has no value. -/
def Operand.mul {β : Type} [Mul β] : Operand β → Operand β → Option β
  | Operand.number a, Operand.number b => some (a * b)
  | _, _ => none

/-- The built-in `/`: it is defined between two numbers only. -/
def Operand.div {β : Type} [Div β] : Operand β → Operand β → Option β
  | Operand.number a, Operand.number b => some (a / b)
  | _, _ => none

/-- What the bare name `pi` denotes in the bodies of `rad` and `deg`: the function
template declared at the top of the header. The bodies write `pi`, not the call
`pi<T>()` that would yield the number. -/
def pi_name {β : Type} : Operand β := Operand.function_template

/-- The function template `rad<T,U>`: `static_cast<T>((pDeg/180.0)*pi)`. The result
is `none` when the expression has no value. -/
def rad {α β : Type} [DivisionRing β] [StaticCast β α] (pDeg : β) : Option α :=
  (Operand.mul (Operand.number (pDeg / 180)) pi_name).map StaticCast.cast

/-- The function template `deg<T,U>`: `static_cast<T>((pRad/pi)*180)`. The result is
`none` when the expression has no value. -/
def deg {α β : Type} [DivisionRing β] [StaticCast β α] (pRad : β) : Option α :=
  ((Operand.div (Operand.number pRad) pi_name).bind
    (fun q => Operand.mul (Operand.number q) (Operand.number 180))).map StaticCast.cast

/-! ## Data -/

/-- The struct `vector<T>`: the data members `x` and `y`. -/
structure vector (α : Type) where
  x : α
  y : α
deriving DecidableEq, Repr

/-- The struct `point<T>`: the data members `x` and `y`. -/
structure point (α : Type) where
  x : α
  y : α
deriving DecidableEq, Repr

/-- The struct `rect<T>`. The anonymous union overlays `left, top, right, bottom`
with `topleft, bottomright`; the four scalars are the storage and the two
points are views of it (`rect.topleft`, `rect.bottomright`). -/
structure rect (α : Type) where
  left : α
  top : α
  right : α
  bottom : α
deriving DecidableEq, Repr

/-! ## Vector -/

/-- The operator `vector::operator==`, with `numeric_limits<T>::epsilon()` as the
parameter `epsilon`. -/
def vector.operator_eq {α β : Type} [LinearOrderedRing α] [StaticCast β α]
    (epsilon : α) (v : vector α) (v2 : vector β) : Bool :=
  let xr : Bool := decide (abs (v.x - StaticCast.cast v2.x) > epsilon)
  let yr : Bool := decide (abs (v.y - StaticCast.cast v2.y) > epsilon)
  xr && yr

/-- The constructor `vector(U pX, V pY)`. -/
def vector.ofPair {α β γ : Type} [StaticCast β α] [StaticCast γ α] (pX : β) (pY : γ) :
    vector α :=
  ⟨StaticCast.cast pX, StaticCast.cast pY⟩

/-- The operator `vector::operator+`. -/
def vector.operator_add {α β : Type} [Add α] [StaticCast β α]
    (v : vector α) (v2 : vector β) : vector α :=
  let xr : α := v.x + StaticCast.cast v2.x
  let yr : α := v.y + StaticCast.cast v2.y
  vector.ofPair xr yr

/-- The operator `vector::operator-`. -/
def vector.operator_sub {α β : Type} [Sub α] [StaticCast β α]
    (v : vector α) (v2 : vector β) : vector α :=
  let xr : α := v.x - StaticCast.cast v2.x
  let yr : α := v.y - StaticCast.cast v2.y
  vector.ofPair xr yr

/-- The operator `vector::operator*`. -/
def vector.operator_mul {α β : Type} [Mul α] [StaticCast β α]
    (v : vector α) (sc : β) : vector α :=
  let xr : α := v.x * StaticCast.cast sc
  let yr : α := v.y * StaticCast.cast sc
  vector.ofPair xr yr

/-- The operator `vector::operator/`. -/
def vector.operator_div {α β : Type} [Div α] [StaticCast β α]
    (v : vector α) (sc : β) : vector α :=
  let xr : α := v.x / StaticCast.cast sc
  let yr : α := v.y / StaticCast.cast sc
  vector.ofPair xr yr

/-- The operator `vector::operator+=`: the receiver after the call. The operand is
read through a reference to const and is not written. -/
def vector.operator_add_assign {α β : Type} [Add α] [StaticCast β α]
    (v : vector α) (v2 : vector β) : vector α :=
  let x1 : α := v.x + StaticCast.cast v2.x
  let y1 : α := v.y + StaticCast.cast v2.y
  ⟨x1, y1⟩

/-- The operator `vector::operator-=`: the receiver after the call. -/
def vector.operator_sub_assign {α β : Type} [Sub α] [StaticCast β α]
    (v : vector α) (v2 : vector β) : vector α :=
  let x1 : α := v.x - StaticCast.cast v2.x
  let y1 : α := v.y - StaticCast.cast v2.y
  ⟨x1, y1⟩

/-- The operator `vector::operator*=`: the receiver after the call. -/
def vector.operator_mul_assign {α β : Type} [Mul α] [StaticCast β α]
    (v : vector α) (sc : β) : vector α :=
  let x1 : α := v.x * StaticCast.cast sc
  let y1 : α := v.y * StaticCast.cast sc
  ⟨x1, y1⟩

/-- The operator `vector::operator/=`, instrumented: the receiver after the call,
and the divisors of the divisions performed, in order. -/
def vector.operator_div_assign_traced {α β : Type} [Div α] [StaticCast β α]
    (v : vector α) (sc : β) : vector α × List α :=
  let x1 : α := v.x / StaticCast.cast sc
  let y1 : α := v.y / StaticCast.cast sc
  (⟨x1, y1⟩, [StaticCast.cast sc, StaticCast.cast sc])

/-- The operator `vector::operator/=`: the receiver after the call. -/
def vector.operator_div_assign {α β : Type} [Div α] [StaticCast β α]
    (v : vector α) (sc : β) : vector α :=
  (v.operator_div_assign_traced sc).1

/-- The method `vector::Length`: `sqrt(sqr(x) + sqr(y))`, with the `<cmath>`
function `sqrt` (and the conversion of its result to `T`) as a parameter. -/
def vector.Length {α : Type} [Add α] [Mul α] (sqrt : α → α) (v : vector α) : α :=
  sqrt (sqr v.x + sqr v.y)

/-- The method `vector::cross`. -/
def vector.cross {α β : Type} [Mul α] [StaticCast β α]
    (v : vector α) (v2 : vector β) : vector α :=
  let xr : α := v.x * StaticCast.cast v2.y
  let yr : α := v.y * StaticCast.cast v2.x
  vector.ofPair xr yr

/-- The method `vector::dot`: the sum is formed in `T` and returned as `U`. -/
def vector.dot {α β : Type} [Add α] [Mul α] [StaticCast β α] [StaticCast α β]
    (v : vector α) (v2 : vector β) : β :=
  let xr : α := v.x * StaticCast.cast v2.x
  let yr : α := v.y * StaticCast.cast v2.y
  StaticCast.cast (xr + yr)

/-- The method `vector::distance`: `sqrt(sqr(xr) + sqr(yr))`, with the `<cmath>`
function `sqrt` (and the conversion of its result to the return type `U`) as a
parameter. -/
def vector.distance {α β : Type} [Add α] [Sub α] [Mul α] [StaticCast β α]
    (sqrt : α → β) (v : vector α) (v2 : vector β) : β :=
  let xr : α := v.x - StaticCast.cast v2.x
  let yr : α := v.y - StaticCast.cast v2.y
  sqrt (sqr xr + sqr yr)

/-- The method `vector::normalize`, instrumented: the receiver after the call, and
the divisors of the divisions performed, in order. -/
def vector.normalize_traced {α : Type} [Zero α] [Add α] [Mul α] [Div α] [LT α]
    [DecidableRel (fun a b : α => a < b)] (sqrt : α → α) (v : vector α) :
    vector α × List α :=
  let mag : α := v.Length sqrt
  if mag > 0 then v.operator_div_assign_traced mag else (v, [])

/-- The method `vector::normalize`: the receiver after the call. -/
def vector.normalize {α : Type} [Zero α] [Add α] [Mul α] [Div α] [LT α]
    [DecidableRel (fun a b : α => a < b)] (sqrt : α → α) (v : vector α) : vector α :=
  (v.normalize_traced sqrt).1

/-- The method `vector::rotate`, with the `<cmath>` functions `cos` and `sin` as
parameters. The arithmetic is done in the type `γ` of `cos(theta)`; the second
assignment reads the member `x` that the first assignment has just written. -/
def vector.rotate {α β γ : Type} [Add γ] [Sub γ] [Mul γ] [StaticCast α γ] [StaticCast γ α]
    (cos sin : β → γ) (v : vector α) (theta : β) : vector α :=
  let x1 : α := StaticCast.cast
    ((StaticCast.cast v.x : γ) * cos theta - (StaticCast.cast v.y : γ) * sin theta)
  let y1 : α := StaticCast.cast
    ((StaticCast.cast x1 : γ) * sin theta + (StaticCast.cast v.y : γ) * cos theta)
  ⟨x1, y1⟩

/-! ## Rectangle -/

/-- The union member `topleft`: the point stored over `left, top`. -/
def rect.topleft {α : Type} (r : rect α) : point α := ⟨r.left, r.top⟩

/-- The union member `bottomright`: the point stored over `right, bottom`. -/
def rect.bottomright {α : Type} (r : rect α) : point α := ⟨r.right, r.bottom⟩

/-- The constructor `point(U pX, V pY)`. -/
def point.ofPair {α β γ : Type} [StaticCast β α] [StaticCast γ α] (pX : β) (pY : γ) : point α :=
  ⟨StaticCast.cast pX, StaticCast.cast pY⟩

/-- The operator `point::operator=(const vector<U>&) const`. The member function
is const and its body only builds and returns a point: the pair is the receiver
after the call and the returned value. -/
def point.operator_assign {α β : Type} [StaticCast β α] (p : point α) (v : vector β) :
    point α × point α :=
  (p, point.ofPair (StaticCast.cast v.x : α) (StaticCast.cast v.y : α))

/-- The constructor `rect(const point<U1>& a, const point<U2>& b)` at `U1 = U2 = T`:
`topleft(a), bottomright(b)`. -/
def rect.ofPoints {α : Type} (a b : point α) : rect α := ⟨a.x, a.y, b.x, b.y⟩

/-- The constructor `rect(U1 a, U2 b, U3 c, U4 d)`:
`topleft(point<T>(a,b)), bottomright(point<T>(c,d))`. -/
def rect.ofScalars {α β₁ β₂ β₃ β₄ : Type}
    [StaticCast β₁ α] [StaticCast β₂ α] [StaticCast β₃ α] [StaticCast β₄ α]
    (a : β₁) (b : β₂) (c : β₃) (d : β₄) : rect α :=
  rect.ofPoints (point.ofPair a b) (point.ofPair c d)

/-- The default constructor `rect()`: all four members are `0`. -/
def rect.zero {α : Type} [Zero α] : rect α := ⟨0, 0, 0, 0⟩

/-- The operator `rect::operator+`:
`return rect(left+c.left, top+c.top, bottom+c.bottom, right+c.right);`
(the argument order is the source's). -/
def rect.operator_add {α : Type} [Add α] (r c : rect α) : rect α :=
  rect.ofScalars (r.left + c.left) (r.top + c.top) (r.bottom + c.bottom) (r.right + c.right)

/-- The method `rect::width` at an integer type `T`: `abs(right-left)`, computed in
`T` and converted to the return type `size_t`. -/
def rect.width (t : IntType) (r : rect Int) : Option Nat :=
  (t.sub r.right r.left).bind (fun d =>
    (t.abs d).bind (fun a => some (IntType.size_t.wrap a).toNat))

/-- The method `rect::height` at an integer type `T`: `abs(bottom-top)`, computed in
`T` and converted to the return type `size_t`. -/
def rect.height (t : IntType) (r : rect Int) : Option Nat :=
  (t.sub r.bottom r.top).bind (fun d =>
    (t.abs d).bind (fun a => some (IntType.size_t.wrap a).toNat))

/-- The method `rect::overlaps`. -/
def rect.overlaps {α : Type} [LT α] [DecidableRel (fun a b : α => a < b)]
    (r p : rect α) : Bool :=
  if (p.left > r.right) ∨ (p.right < r.left) ∨ (p.top > r.bottom) ∨ (p.bottom < r.top) then false
  else true

/-- The method `rect::point_inside`. -/
def rect.point_inside {α : Type} [LT α] [DecidableRel (fun a b : α => a < b)]
    (r : rect α) (p : point α) : Bool :=
  if (p.x > r.right) ∨ (p.y > r.bottom) ∨ (p.x < r.left) ∨ (p.y < r.top) then false
  else true

end Math2D

namespace Math2D

/-! ## Unfolding lemmas -/

theorem cast_self {α : Type} (a : α) : (StaticCast.cast a : α) = a := rfl

theorem abs_eq {α : Type} [LinearOrderedRing α] (v : α) : abs v = |v| := rfl

theorem rect_operator_add_fields {α : Type} [Add α] (a b : rect α) :
    (a.operator_add b).left = a.left + b.left ∧ (a.operator_add b).top = a.top + b.top ∧
      (a.operator_add b).right = a.bottom + b.bottom ∧
      (a.operator_add b).bottom = a.right + b.right :=
  ⟨rfl, rfl, rfl, rfl⟩

theorem rotate_eq {α β : Type} [Ring α] (cos sin : β → α) (v : vector α) (theta : β) :
    v.rotate cos sin theta =
      ⟨v.x * cos theta - v.y * sin theta,
        (v.x * cos theta - v.y * sin theta) * sin theta + v.y * cos theta⟩ := rfl

theorem normalize_traced_of_pos {α : Type} [LinearOrderedRing α] [Div α] (sqrt : α → α)
    (v : vector α) (h : 0 < v.Length sqrt) :
    v.normalize_traced sqrt =
      (⟨v.x / v.Length sqrt, v.y / v.Length sqrt⟩, [v.Length sqrt, v.Length sqrt]) := by
  unfold vector.normalize_traced
  simp only [gt_iff_lt, h, if_true]
  rfl

theorem normalize_traced_of_not_pos {α : Type} [LinearOrderedRing α] [Div α] (sqrt : α → α)
    (v : vector α) (h : ¬ 0 < v.Length sqrt) : v.normalize_traced sqrt = (v, []) := by
  unfold vector.normalize_traced
  simp only [gt_iff_lt, h, if_false]

/-! ## Rectangle addition -/

/-- C1, at the failing input: adding the zero rect to `rect(0,0,1,2)` gives
`rect(0,0,2,1)`: `right` receives the sum of the bottoms and `bottom` the sum of
the rights, so the result is not the corner-wise sum and the zero rect is not
neutral. -/
theorem rect_operator_add_zero_swaps :
    (rect.ofScalars (0 : Int) (0 : Int) (1 : Int) (2 : Int) : rect Int).operator_add rect.zero
        = rect.mk 0 0 2 1 ∧
      (rect.ofScalars (0 : Int) (0 : Int) (1 : Int) (2 : Int) : rect Int).operator_add rect.zero
        ≠ rect.ofScalars (0 : Int) (0 : Int) (1 : Int) (2 : Int) ∧
      ((rect.ofScalars (0 : Int) (0 : Int) (1 : Int) (2 : Int) : rect Int).operator_add
        rect.zero).right ≠ (1 : Int) + 0 := by
  decide

/-! ## Rotation -/

/-- C2, at the failing input: rotating `(1, 0)` by `π/2` leaves `(0, 0)`, because the
new `y` is computed from the already overwritten `x`; the components computed from
the original pair would be `(0, 1)`. -/
theorem rotate_quarter_turn_unit_x :
    (vector.mk (1 : ℝ) 0).rotate Real.cos Real.sin (Real.pi / 2) = vector.mk 0 0 ∧
      (vector.mk (1 : ℝ) 0).rotate Real.cos Real.sin (Real.pi / 2) ≠
        vector.mk (1 * Real.cos (Real.pi / 2) - 0 * Real.sin (Real.pi / 2))
          (1 * Real.sin (Real.pi / 2) + 0 * Real.cos (Real.pi / 2)) := by
  have h : (vector.mk (1 : ℝ) 0).rotate Real.cos Real.sin (Real.pi / 2) = vector.mk 0 0 := by
    rw [rotate_eq]; simp
  refine ⟨h, ?_⟩
  rw [h]
  simp

/-- C3, at the failing input: rotating `(1, 0)` by `π/2` and then by `-(π/2)` leaves
`(0, 0)`, not the original `(1, 0)`. -/
theorem rotate_round_trip_unit_x :
    ((vector.mk (1 : ℝ) 0).rotate Real.cos Real.sin (Real.pi / 2)).rotate
        Real.cos Real.sin (-(Real.pi / 2)) = vector.mk 0 0 ∧
      ((vector.mk (1 : ℝ) 0).rotate Real.cos Real.sin (Real.pi / 2)).rotate
        Real.cos Real.sin (-(Real.pi / 2)) ≠ vector.mk 1 0 := by
  have h : ((vector.mk (1 : ℝ) 0).rotate Real.cos Real.sin (Real.pi / 2)).rotate
      Real.cos Real.sin (-(Real.pi / 2)) = vector.mk 0 0 := by
    rw [rotate_eq, rotate_eq]; simp
  refine ⟨h, ?_⟩
  rw [h]
  simp

/-! ## Rectangle predicates and size -/

/-- C4: `a.overlaps(b)` is true exactly when `b.left <= a.right`, `b.right >= a.left`,
`b.top <= a.bottom` and `b.bottom >= a.top`; rects sharing only an edge or a corner
overlap: `Rect(0,0,10,10)` overlaps `Rect(5,5,15,15)`, `Rect(10,0,20,10)` and
`Rect(10,10,20,20)`, but not `Rect(11,0,20,10)`. -/
theorem rect_overlaps_iff :
    (∀ (α : Type) [LinearOrder α] (a b : rect α),
        a.overlaps b = true ↔
          (b.left ≤ a.right ∧ b.right ≥ a.left ∧ b.top ≤ a.bottom ∧ b.bottom ≥ a.top)) ∧
      (rect.ofScalars (0 : Int) (0 : Int) (10 : Int) (10 : Int) : rect Int).overlaps
        (rect.ofScalars (5 : Int) (5 : Int) (15 : Int) (15 : Int)) = true ∧
      (rect.ofScalars (0 : Int) (0 : Int) (10 : Int) (10 : Int) : rect Int).overlaps
        (rect.ofScalars (10 : Int) (0 : Int) (20 : Int) (10 : Int)) = true ∧
      (rect.ofScalars (0 : Int) (0 : Int) (10 : Int) (10 : Int) : rect Int).overlaps
        (rect.ofScalars (10 : Int) (10 : Int) (20 : Int) (20 : Int)) = true ∧
      (rect.ofScalars (0 : Int) (0 : Int) (10 : Int) (10 : Int) : rect Int).overlaps
        (rect.ofScalars (11 : Int) (0 : Int) (20 : Int) (10 : Int)) = false := by
  refine ⟨?_, by decide, by decide, by decide, by decide⟩
  intro α _ a b
  unfold rect.overlaps
  by_cases h1 : b.left > a.right
  · simp [h1]
  · by_cases h2 : b.right < a.left
    · simp [h2]
    · by_cases h3 : b.top > a.bottom
      · simp [h3]
      · by_cases h4 : b.bottom < a.top
        · simp [h4]
        · simp only [h1, h2, h3, h4, or_self, if_false, true_iff]
          exact ⟨not_lt.mp h1, not_lt.mp h2, not_lt.mp h3, not_lt.mp h4⟩

/-- C5: `r.point_inside(p)` is true exactly when `r.left <= p.x <= r.right` and
`r.top <= p.y <= r.bottom`, boundary included: `Rect(0,0,10,10)` contains
`Point(10,10)` and does not contain `Point(11,5)`. -/
theorem rect_point_inside_iff :
    (∀ (α : Type) [LinearOrder α] (r : rect α) (p : point α),
        r.point_inside p = true ↔
          ((r.left ≤ p.x ∧ p.x ≤ r.right) ∧ (r.top ≤ p.y ∧ p.y ≤ r.bottom))) ∧
      (rect.ofScalars (0 : Int) (0 : Int) (10 : Int) (10 : Int) : rect Int).point_inside
        (point.ofPair (10 : Int) (10 : Int)) = true ∧
      (rect.ofScalars (0 : Int) (0 : Int) (10 : Int) (10 : Int) : rect Int).point_inside
        (point.ofPair (11 : Int) (5 : Int)) = false := by
  refine ⟨?_, by decide, by decide⟩
  intro α _ r p
  unfold rect.point_inside
  by_cases h1 : p.x > r.right
  · simp [h1]
  · by_cases h2 : p.y > r.bottom
    · simp [h2]
    · by_cases h3 : p.x < r.left
      · simp [h3]
      · by_cases h4 : p.y < r.top
        · simp [h4]
        · simp only [h1, h2, h3, h4, or_self, if_false, true_iff]
          exact ⟨⟨not_lt.mp h3, not_lt.mp h1⟩, not_lt.mp h4, not_lt.mp h2⟩

theorem inRange_iff (t : IntType) (v : Int) :
    t.inRange v = true ↔ (t.minValue ≤ v ∧ v ≤ t.maxValue) := by
  unfold IntType.inRange
  exact decide_eq_true_iff

theorem sub_of_inRange (t : IntType) (a b : Int) (h : t.inRange (a - b) = true) :
    t.sub a b = some (a - b) := by
  unfold IntType.sub
  by_cases hs : t.signed = true
  · rw [if_pos hs, if_pos h]
  · rw [if_neg hs]
    have hr := (inRange_iff t (a - b)).mp h
    unfold IntType.minValue IntType.maxValue at hr
    rw [if_neg hs, if_neg hs] at hr
    unfold IntType.wrap
    rw [Int.emod_eq_of_lt hr.1 (by omega)]

theorem toDouble_of_le (v : Int) (h : |v| ≤ 2 ^ 53) : toDouble v = v := by
  unfold toDouble
  have hn : v.natAbs ≤ 2 ^ 53 := by
    have h2 : ((v.natAbs : Nat) : Int) ≤ ((2 ^ 53 : Nat) : Int) := by
      rw [Int.natCast_natAbs]; exact_mod_cast h
    exact_mod_cast h2
  simp only [hn, if_true]

theorem abs_of_inRange (t : IntType) (v : Int) (h53 : |v| ≤ 2 ^ 53)
    (h : t.inRange |v| = true) : t.abs v = some |v| := by
  unfold IntType.abs
  simp only [toDouble_of_le v h53, h, if_true]

theorem size_t_wrap_of_le (a : Int) (h0 : 0 ≤ a) (h : a ≤ 2 ^ 53) :
    IntType.size_t.wrap a = a := by
  unfold IntType.wrap IntType.size_t
  exact Int.emod_eq_of_lt h0 (lt_of_le_of_lt h (by norm_num))

theorem toNat_abs_eq (v : Int) : |v|.toNat = v.natAbs := by
  rw [Int.abs_eq_natAbs]
  exact Int.toNat_ofNat _

theorem width_of_inRange (t : IntType) (r : rect Int)
    (h1 : t.inRange (r.right - r.left) = true) (h2 : t.inRange |r.right - r.left| = true)
    (h3 : |r.right - r.left| ≤ 2 ^ 53) :
    r.width t = some (r.right - r.left).natAbs := by
  unfold rect.width
  rw [sub_of_inRange t _ _ h1, Option.some_bind, abs_of_inRange t _ h3 h2, Option.some_bind,
    size_t_wrap_of_le _ (abs_nonneg _) h3, toNat_abs_eq]

theorem height_of_inRange (t : IntType) (r : rect Int)
    (h1 : t.inRange (r.bottom - r.top) = true) (h2 : t.inRange |r.bottom - r.top| = true)
    (h3 : |r.bottom - r.top| ≤ 2 ^ 53) :
    r.height t = some (r.bottom - r.top).natAbs := by
  unfold rect.height
  rw [sub_of_inRange t _ _ h1, Option.some_bind, abs_of_inRange t _ h3 h2, Option.some_bind,
    size_t_wrap_of_le _ (abs_nonneg _) h3, toNat_abs_eq]

/-- C6, as stated, fails. Over `unsigned int` the rect with `left = 10`, `right = 0`
has width `4294967286`, not `|0 - 10| = 10`, while `Rect(0,0,10,10)` has width 10, so
swapping `left` with `right` changes `width()`. Over `long long` the rect with
`left = 0`, `right = 2^53 + 1` has width `2^53`, because `abs` goes through `double`. -/
theorem rect_width_not_abs_difference :
    (rect.ofScalars (10 : Int) (0 : Int) (0 : Int) (10 : Int) : rect Int).width
        IntType.unsigned = some 4294967286 ∧
      (rect.ofScalars (10 : Int) (0 : Int) (0 : Int) (10 : Int) : rect Int).width
        IntType.unsigned ≠ some ((0 : Int) - 10).natAbs ∧
      (rect.ofScalars (0 : Int) (0 : Int) (10 : Int) (10 : Int) : rect Int).width
        IntType.unsigned = some 10 ∧
      (rect.ofScalars (10 : Int) (0 : Int) (0 : Int) (10 : Int) : rect Int).width
          IntType.unsigned ≠
        (rect.ofScalars (0 : Int) (0 : Int) (10 : Int) (10 : Int) : rect Int).width
          IntType.unsigned ∧
      (rect.ofScalars (0 : Int) (0 : Int) (9007199254740993 : Int) (0 : Int) : rect Int).width
        IntType.long_long = some 9007199254740992 ∧
      (rect.ofScalars (0 : Int) (0 : Int) (9007199254740993 : Int) (0 : Int) : rect Int).width
        IntType.long_long ≠ some ((9007199254740993 : Int) - 0).natAbs := by
  have hd : toDouble 9007199254740993 = 9007199254740992 := by
    have hl : Nat.log2 9007199254740993 = 53 := by
      rw [Nat.log2_eq_log_two]
      exact (Nat.log_eq_iff (Or.inl (by norm_num))).mpr ⟨by norm_num, by norm_num⟩
    have hn : Int.natAbs 9007199254740993 = 9007199254740993 := rfl
    unfold toDouble
    simp only [hn, hl]
    decide
  have hsub : IntType.long_long.sub 9007199254740993 0 = some 9007199254740993 := by decide
  have habs : IntType.long_long.abs 9007199254740993 = some 9007199254740992 := by
    unfold IntType.abs
    rw [hd]
    decide
  have hw : (rect.ofScalars (0 : Int) (0 : Int) (9007199254740993 : Int) (0 : Int) :
      rect Int).width IntType.long_long = some 9007199254740992 := by
    show (IntType.long_long.sub 9007199254740993 0).bind (fun d =>
      (IntType.long_long.abs d).bind (fun a => some (IntType.size_t.wrap a).toNat))
      = some 9007199254740992
    rw [hsub, Option.some_bind, habs, Option.some_bind]
    decide
  refine ⟨by decide, by decide, by decide, by decide, hw, ?_⟩
  rw [hw]
  decide

/-- C6, amended: over an integer type `T` in which `right - left` and its absolute
value are both values of `T` and the absolute value is at most `2^53`, `width()`
equals `|right - left|`; if `left - right` is a value of `T` as well, swapping `left`
with `right` leaves `width()` unchanged. The same holds for `height()` with
`bottom - top`. -/
theorem rect_width_height_abs_in_range (t : IntType) (r : rect Int) :
    (t.inRange (r.right - r.left) = true → t.inRange |r.right - r.left| = true →
        |r.right - r.left| ≤ 2 ^ 53 →
        r.width t = some (r.right - r.left).natAbs ∧
          (t.inRange (r.left - r.right) = true →
            (rect.mk r.right r.top r.left r.bottom).width t = r.width t)) ∧
      (t.inRange (r.bottom - r.top) = true → t.inRange |r.bottom - r.top| = true →
        |r.bottom - r.top| ≤ 2 ^ 53 →
        r.height t = some (r.bottom - r.top).natAbs ∧
          (t.inRange (r.top - r.bottom) = true →
            (rect.mk r.left r.bottom r.right r.top).height t = r.height t)) := by
  constructor
  · intro h1 h2 h3
    refine ⟨width_of_inRange t r h1 h2 h3, fun h4 => ?_⟩
    have hs : |r.left - r.right| = |r.right - r.left| := abs_sub_comm _ _
    rw [width_of_inRange t r h1 h2 h3,
      width_of_inRange t (rect.mk r.right r.top r.left r.bottom) h4
        (by show t.inRange |r.left - r.right| = true; rw [hs]; exact h2)
        (by show |r.left - r.right| ≤ 2 ^ 53; rw [hs]; exact h3)]
    show some (r.left - r.right).natAbs = some (r.right - r.left).natAbs
    rw [← Int.natAbs_neg (r.left - r.right), neg_sub]
  · intro h1 h2 h3
    refine ⟨height_of_inRange t r h1 h2 h3, fun h4 => ?_⟩
    have hs : |r.top - r.bottom| = |r.bottom - r.top| := abs_sub_comm _ _
    rw [height_of_inRange t r h1 h2 h3,
      height_of_inRange t (rect.mk r.left r.bottom r.right r.top) h4
        (by show t.inRange |r.top - r.bottom| = true; rw [hs]; exact h2)
        (by show |r.top - r.bottom| ≤ 2 ^ 53; rw [hs]; exact h3)]
    show some (r.top - r.bottom).natAbs = some (r.bottom - r.top).natAbs
    rw [← Int.natAbs_neg (r.top - r.bottom), neg_sub]

theorem rect_width_height_abs_in_range_witness :
    (rect.mk (10 : Int) 0 0 10).width IntType.int = some 10 ∧
      (rect.mk (0 : Int) 0 10 10).width IntType.int = (rect.mk (10 : Int) 0 0 10).width IntType.int ∧
      (rect.mk (10 : Int) 0 0 10).height IntType.int = some 10 ∧
      (rect.mk (10 : Int) 10 0 0).height IntType.int = (rect.mk (10 : Int) 0 0 10).height IntType.int :=
  have hw := (rect_width_height_abs_in_range IntType.int (rect.mk 10 0 0 10)).1
    (by decide) (by decide) (by decide)
  have hh := (rect_width_height_abs_in_range IntType.int (rect.mk 10 0 0 10)).2
    (by decide) (by decide) (by decide)
  ⟨hw.1, hw.2 (by decide), hh.1, hh.2 (by decide)⟩

/-! ## Normalisation -/

theorem Length_eq {α : Type} [Add α] [Mul α] (sqrt : α → α) (v : vector α) :
    v.Length sqrt = sqrt (v.x * v.x + v.y * v.y) := rfl

/-- C7: over the reals, when `Length()` is nonzero, after `normalize()` the vector
has `Length()` equal to 1. -/
theorem normalize_Length_eq_one (v : vector ℝ) (h : v.Length Real.sqrt ≠ 0) :
    (v.normalize Real.sqrt).Length Real.sqrt = 1 := by
  have hnn : 0 ≤ v.Length Real.sqrt := Real.sqrt_nonneg _
  have hpos : 0 < v.Length Real.sqrt := lt_of_le_of_ne hnn (Ne.symm h)
  have hsum : 0 ≤ v.x * v.x + v.y * v.y := add_nonneg (mul_self_nonneg _) (mul_self_nonneg _)
  have hsq : v.Length Real.sqrt * v.Length Real.sqrt = v.x * v.x + v.y * v.y := by
    rw [Length_eq]; exact Real.mul_self_sqrt hsum
  unfold vector.normalize
  rw [normalize_traced_of_pos Real.sqrt v hpos]
  show Real.sqrt (v.x / v.Length Real.sqrt * (v.x / v.Length Real.sqrt)
    + v.y / v.Length Real.sqrt * (v.y / v.Length Real.sqrt)) = 1
  have hone : v.x / v.Length Real.sqrt * (v.x / v.Length Real.sqrt)
      + v.y / v.Length Real.sqrt * (v.y / v.Length Real.sqrt) = 1 := by
    field_simp
    rw [hsq]
  rw [hone, Real.sqrt_one]

theorem normalize_Length_eq_one_witness :
    (vector.mk (3 : ℝ) 4).Length Real.sqrt ≠ 0 ∧
      ((vector.mk (3 : ℝ) 4).normalize Real.sqrt).Length Real.sqrt = 1 :=
  have h5 : (vector.mk (3 : ℝ) 4).Length Real.sqrt = 5 := by
    rw [Length_eq]
    have h : (3 : ℝ) * 3 + 4 * 4 = 5 * 5 := by norm_num
    rw [h]
    exact Real.sqrt_mul_self (by norm_num)
  have hne : (vector.mk (3 : ℝ) 4).Length Real.sqrt ≠ 0 := by rw [h5]; norm_num
  ⟨hne, normalize_Length_eq_one (vector.mk 3 4) hne⟩

/-- C8: for every vector whose magnitude is zero, `normalize()` leaves `x` and `y`
unchanged and performs no division; every divisor `normalize()` divides by is
strictly positive, and when the magnitude is positive the two divisions are by the
magnitude. -/
theorem normalize_zero_magnitude {α : Type} [LinearOrderedRing α] [Div α]
    (sqrt : α → α) (v : vector α) :
    (v.Length sqrt = 0 →
        (v.normalize sqrt).x = v.x ∧ (v.normalize sqrt).y = v.y ∧
          (v.normalize_traced sqrt).2 = []) ∧
      (∀ d ∈ (v.normalize_traced sqrt).2, 0 < d) ∧
      (0 < v.Length sqrt → (v.normalize_traced sqrt).2 = [v.Length sqrt, v.Length sqrt]) := by
  refine ⟨?_, ?_, ?_⟩
  · intro h0
    have hn : ¬ 0 < v.Length sqrt := by rw [h0]; exact lt_irrefl 0
    unfold vector.normalize
    rw [normalize_traced_of_not_pos sqrt v hn]
    exact ⟨rfl, rfl, rfl⟩
  · intro d hd
    by_cases hp : 0 < v.Length sqrt
    · rw [normalize_traced_of_pos sqrt v hp] at hd
      simp only [List.mem_cons, List.mem_singleton, or_self, List.mem_nil_iff, or_false] at hd
      rw [hd]; exact hp
    · rw [normalize_traced_of_not_pos sqrt v hp] at hd
      simp at hd
  · intro hp
    rw [normalize_traced_of_pos sqrt v hp]

theorem normalize_zero_magnitude_witness :
    (vector.mk (0 : ℝ) 0).Length Real.sqrt = 0 ∧
      ((vector.mk (0 : ℝ) 0).normalize Real.sqrt).x = 0 ∧
      ((vector.mk (0 : ℝ) 0).normalize Real.sqrt).y = 0 ∧
      ((vector.mk (0 : ℝ) 0).normalize_traced Real.sqrt).2 = [] :=
  have h0 : (vector.mk (0 : ℝ) 0).Length Real.sqrt = 0 := by
    rw [Length_eq]; simp
  ⟨h0, (normalize_zero_magnitude Real.sqrt (vector.mk 0 0)).1 h0⟩

/-! ## Equality operator -/

/-- C9: for two vectors of the same scalar type and epsilon `e`, `a == b` returns
true exactly when `|a.x - b.x| > e` and `|a.y - b.y| > e`, and false otherwise; in
particular it returns false when only one axis differs by more than `e`. -/
theorem operator_eq_iff {α : Type} [LinearOrderedRing α] (e : α) (a b : vector α) :
    (a.operator_eq e b = true ↔ (|a.x - b.x| > e ∧ |a.y - b.y| > e)) ∧
      (a.operator_eq e b = false ↔ ¬ (|a.x - b.x| > e ∧ |a.y - b.y| > e)) ∧
      ((|a.x - b.x| > e ∧ ¬ |a.y - b.y| > e) → a.operator_eq e b = false) ∧
      ((¬ |a.x - b.x| > e ∧ |a.y - b.y| > e) → a.operator_eq e b = false) := by
  have key : a.operator_eq e b = true ↔ (|a.x - b.x| > e ∧ |a.y - b.y| > e) := by
    unfold vector.operator_eq
    simp only [cast_self, abs_eq, Bool.and_eq_true, decide_eq_true_eq]
  have key2 : a.operator_eq e b = false ↔ ¬ (|a.x - b.x| > e ∧ |a.y - b.y| > e) := by
    rw [← key]; simp
  refine ⟨key, key2, ?_, ?_⟩
  · intro h; exact key2.mpr (fun hc => h.2 hc.2)
  · intro h; exact key2.mpr (fun hc => h.1 hc.1)

theorem operator_eq_iff_witness :
    (vector.mk (1 : Int) 0).operator_eq (0 : Int) (vector.mk (0 : Int) 0) = false :=
  (operator_eq_iff (0 : Int) (vector.mk 1 0) (vector.mk 0 0)).2.2.1 (by decide)

/-! ## Degrees and radians -/

/-- C10, at the failing input: `rad(90)` and `deg(90)` have no value, for the bodies
multiply and divide by the name of the function template `pi` instead of the number
`pi<T>()`; the same holds at every argument, so `deg(rad(x))` and `rad(deg(x))` are
never `x`. -/
theorem rad_deg_use_uncalled_pi :
    (rad (90 : ℚ) : Option ℚ) = none ∧ (deg (90 : ℚ) : Option ℚ) = none ∧
      (∀ x : ℚ, (rad x : Option ℚ) = none ∧ (deg x : Option ℚ) = none) ∧
      (∀ x : ℚ, ((rad x : Option ℚ).bind (fun r => (deg r : Option ℚ))) ≠ some x) ∧
      (∀ x : ℚ, ((deg x : Option ℚ).bind (fun d => (rad d : Option ℚ))) ≠ some x) := by
  refine ⟨rfl, rfl, fun x => ⟨rfl, rfl⟩, fun x h => ?_, fun x h => ?_⟩
  · exact Option.noConfusion h
  · exact Option.noConfusion h

/-! ## Dot product, distance and length -/

theorem dot_eq {α : Type} [Add α] [Mul α] (a b : vector α) :
    (a.dot b : α) = a.x * b.x + a.y * b.y := rfl

theorem distance_eq {α : Type} [Add α] [Sub α] [Mul α] (sqrt : α → α) (a b : vector α) :
    a.distance sqrt b = sqrt ((a.x - b.x) * (a.x - b.x) + (a.y - b.y) * (a.y - b.y)) := rfl

/-- C11: for two vectors of the same scalar type, `a.dot(b) = b.dot(a)`, where
`a.dot(b) = a.x*b.x + a.y*b.y`. -/
theorem dot_comm {α : Type} [CommSemiring α] (a b : vector α) :
    (a.dot b : α) = b.dot a ∧ (a.dot b : α) = a.x * b.x + a.y * b.y := by
  refine ⟨?_, rfl⟩
  rw [dot_eq, dot_eq, mul_comm a.x b.x, mul_comm a.y b.y]

/-- C12: for two vectors of the same scalar type, `a.distance(b) = b.distance(a)`,
whatever function stands for `sqrt`; in particular over the reals with the real
square root. -/
theorem distance_symm :
    (∀ (α : Type) [CommRing α] (sqrt : α → α) (a b : vector α),
        a.distance sqrt b = b.distance sqrt a) ∧
      (∀ a b : vector ℝ, a.distance Real.sqrt b = b.distance Real.sqrt a) := by
  have key : ∀ (α : Type) [CommRing α] (sqrt : α → α) (a b : vector α),
      a.distance sqrt b = b.distance sqrt a := by
    intro α _ sqrt a b
    rw [distance_eq, distance_eq]
    congr 1
    ring
  exact ⟨key, fun a b => key ℝ Real.sqrt a b⟩

/-- C13: over the reals, `Length()` is `sqrt(x^2 + y^2)`: it is non-negative, its
square is `x*x + y*y`, and it is the only non-negative real with that square;
`Vector(3,4).Length()` is 5. -/
theorem Length_is_euclidean_norm :
    (∀ v : vector ℝ,
        v.Length Real.sqrt = Real.sqrt (v.x ^ 2 + v.y ^ 2) ∧
          0 ≤ v.Length Real.sqrt ∧
          v.Length Real.sqrt * v.Length Real.sqrt = v.x * v.x + v.y * v.y ∧
          (∀ r : ℝ, 0 ≤ r → r * r = v.x * v.x + v.y * v.y → r = v.Length Real.sqrt)) ∧
      (vector.ofPair (3 : ℝ) (4 : ℝ) : vector ℝ).Length Real.sqrt = 5 := by
  constructor
  · intro v
    have hsum : 0 ≤ v.x * v.x + v.y * v.y :=
      add_nonneg (mul_self_nonneg _) (mul_self_nonneg _)
    refine ⟨?_, Real.sqrt_nonneg _, ?_, ?_⟩
    · rw [Length_eq, pow_two, pow_two]
    · rw [Length_eq]; exact Real.mul_self_sqrt hsum
    · intro r hr hrr
      rw [Length_eq, ← hrr]
      exact (Real.sqrt_mul_self hr).symm
  · show Real.sqrt ((3 : ℝ) * 3 + 4 * 4) = 5
    have h : (3 : ℝ) * 3 + 4 * 4 = 5 * 5 := by norm_num
    rw [h]
    exact Real.sqrt_mul_self (by norm_num)

/-! ## Vector arithmetic -/

theorem truncate_eq (q : ℚ) : truncate q = if 0 ≤ q then ⌊q⌋ else ⌈q⌉ := by
  unfold truncate
  split_ifs with h
  · rw [Rat.floor_def]
    exact Int.tdiv_eq_ediv (Rat.num_nonneg.mpr h) (Int.ofNat_nonneg _)
  · have hneg : 0 ≤ (-q).num := Rat.num_nonneg.mpr (by linarith [not_le.mp h])
    have hc : ⌈q⌉ = -⌊-q⌋ := by rw [Int.floor_neg, neg_neg]
    rw [hc, Rat.floor_def, Rat.neg_num, Rat.neg_den]
    rw [Rat.neg_num] at hneg
    rw [← Int.tdiv_eq_ediv hneg (Int.ofNat_nonneg _), Int.neg_tdiv, neg_neg]

/-- C14: each compound operator leaves the receiver equal to the result of the
corresponding non-mutating operator: `v += w` leaves `v + w`, `v -= w` leaves
`v - w`, `v *= s` leaves `v * s` and `v /= s` leaves `v / s` (for every `s`, so in
particular for nonzero `s`); the functions have no other output. -/
theorem compound_operators_agree {α β : Type} [Add α] [Sub α] [Mul α] [Div α]
    [StaticCast β α] (v : vector α) (w : vector β) (s : β) :
    v.operator_add_assign w = v.operator_add w ∧
      v.operator_sub_assign w = v.operator_sub w ∧
      v.operator_mul_assign s = v.operator_mul s ∧
      v.operator_div_assign s = v.operator_div s :=
  ⟨rfl, rfl, rfl, rfl⟩

/-- C15: for an integer vector `a` and a fractional vector `b`, `a + b` and `a - b`
convert the components of `b` to the integer type, truncating toward zero, before
the arithmetic; the result is not the truncation of the exact sum in general:
`(1, 1) + (-1/2, -1/2)` is `(1, 1)`, while the exact sum `1/2` truncates to `0`. -/
theorem mixed_add_sub_truncates_operand :
    (∀ (a : vector Int) (b : vector ℚ),
        (a.operator_add b).x = a.x + truncate b.x ∧
          (a.operator_add b).y = a.y + truncate b.y ∧
          (a.operator_sub b).x = a.x - truncate b.x ∧
          (a.operator_sub b).y = a.y - truncate b.y) ∧
      (∀ q : ℚ, truncate q = if 0 ≤ q then ⌊q⌋ else ⌈q⌉) ∧
      ((vector.mk (1 : Int) 1).operator_add (vector.mk (-1 / 2 : ℚ) (-1 / 2)) = vector.mk 1 1 ∧
        truncate (((1 : Int) : ℚ) + (-1 / 2 : ℚ)) = 0 ∧
        ((vector.mk (1 : Int) 1).operator_add (vector.mk (-1 / 2 : ℚ) (-1 / 2))).x ≠
          truncate (((1 : Int) : ℚ) + (-1 / 2 : ℚ))) := by
  refine ⟨fun a b => ⟨rfl, rfl, rfl, rfl⟩, truncate_eq, ?_⟩
  have h1 : truncate (-1 / 2 : ℚ) = 0 := by
    rw [truncate_eq]; norm_num
  have h2 : truncate (((1 : Int) : ℚ) + (-1 / 2 : ℚ)) = 0 := by
    rw [truncate_eq]; norm_num
  have h3 : (vector.mk (1 : Int) 1).operator_add (vector.mk (-1 / 2 : ℚ) (-1 / 2))
      = vector.mk 1 1 := by
    show vector.mk ((1 : Int) + truncate (-1 / 2 : ℚ)) ((1 : Int) + truncate (-1 / 2 : ℚ))
      = vector.mk 1 1
    rw [h1]; rfl
  refine ⟨h3, h2, ?_⟩
  rw [h3, h2]
  decide

/-- C16: for two vectors of the same scalar type, `a.cross(b)` is the vector
`(a.x*b.y, a.y*b.x)`, not the scalar `a.x*b.y - a.y*b.x`: for `a = b = (1, 1)` it is
the vector `(1, 1)`, neither of whose components is the scalar `0`. -/
theorem cross_is_componentwise_vector :
    (∀ (α : Type) [Mul α] (a b : vector α),
        a.cross b = vector.mk (a.x * b.y) (a.y * b.x)) ∧
      ((vector.mk (1 : Int) 1).cross (vector.mk (1 : Int) 1) = vector.mk 1 1 ∧
        ((vector.mk (1 : Int) 1).cross (vector.mk (1 : Int) 1)).x ≠ (1 : Int) * 1 - 1 * 1 ∧
        ((vector.mk (1 : Int) 1).cross (vector.mk (1 : Int) 1)).y ≠ (1 : Int) * 1 - 1 * 1) := by
  refine ⟨fun α _ a b => rfl, ?_⟩
  decide

/-! ## Relations between the predicates -/

theorem overlaps_eq_true_iff {α : Type} [LinearOrder α] (a b : rect α) :
    a.overlaps b = true ↔
      (b.left ≤ a.right ∧ a.left ≤ b.right ∧ b.top ≤ a.bottom ∧ a.top ≤ b.bottom) := by
  unfold rect.overlaps
  simp only [gt_iff_lt, Bool.ite_eq_true_distrib, if_false_left, not_or, not_lt]
  simp

theorem point_inside_eq_true_iff {α : Type} [LinearOrder α] (r : rect α) (p : point α) :
    r.point_inside p = true ↔
      (p.x ≤ r.right ∧ p.y ≤ r.bottom ∧ r.left ≤ p.x ∧ r.top ≤ p.y) := by
  unfold rect.point_inside
  simp only [gt_iff_lt, Bool.ite_eq_true_distrib, if_false_left, not_or, not_lt]
  simp

/-- C17: for every pair of rects, normalised or inverted, `a.overlaps(b)` equals
`b.overlaps(a)`. -/
theorem overlaps_symm {α : Type} [LinearOrder α] (a b : rect α) :
    a.overlaps b = b.overlaps a := by
  rw [Bool.eq_iff_iff, overlaps_eq_true_iff, overlaps_eq_true_iff]
  constructor
  · rintro ⟨h1, h2, h3, h4⟩; exact ⟨h2, h1, h4, h3⟩
  · rintro ⟨h1, h2, h3, h4⟩; exact ⟨h2, h1, h4, h3⟩

/-- C18: if some point is inside both `a` and `b` then `a.overlaps(b)`; conversely,
when both rects are normalised (`left <= right` and `top <= bottom`) and
`a.overlaps(b)`, some point is inside both. -/
theorem overlaps_iff_common_point {α : Type} [LinearOrder α] (a b : rect α) :
    ((∃ p : point α, a.point_inside p = true ∧ b.point_inside p = true) →
        a.overlaps b = true) ∧
      (a.left ≤ a.right → a.top ≤ a.bottom → b.left ≤ b.right → b.top ≤ b.bottom →
        a.overlaps b = true →
        ∃ p : point α, a.point_inside p = true ∧ b.point_inside p = true) := by
  constructor
  · rintro ⟨p, ha, hb⟩
    rw [point_inside_eq_true_iff] at ha hb
    rw [overlaps_eq_true_iff]
    obtain ⟨a1, a2, a3, a4⟩ := ha
    obtain ⟨b1, b2, b3, b4⟩ := hb
    exact ⟨le_trans b3 a1, le_trans a3 b1, le_trans b4 a2, le_trans a4 b2⟩
  · intro ha1 ha2 hb1 hb2 ho
    rw [overlaps_eq_true_iff] at ho
    obtain ⟨o1, o2, o3, o4⟩ := ho
    refine ⟨⟨max a.left b.left, max a.top b.top⟩, ?_, ?_⟩
    · rw [point_inside_eq_true_iff]
      exact ⟨max_le ha1 o1, max_le ha2 o3, le_max_left _ _, le_max_left _ _⟩
    · rw [point_inside_eq_true_iff]
      exact ⟨max_le o2 hb1, max_le o4 hb2, le_max_right _ _, le_max_right _ _⟩

theorem overlaps_iff_common_point_witness :
    (rect.mk (0 : Int) 0 10 10).overlaps (rect.mk 10 10 20 20) = true ∧
      ∃ p : point Int, (rect.mk (0 : Int) 0 10 10).point_inside p = true ∧
        (rect.mk (10 : Int) 10 20 20).point_inside p = true :=
  ⟨by decide,
    (overlaps_iff_common_point (rect.mk (0 : Int) 0 10 10) (rect.mk 10 10 20 20)).2
      (by decide) (by decide) (by decide) (by decide) (by decide)⟩

/-! ## Equality operator: irreflexive and symmetric -/

/-- C19: for every vector `v` and every non-negative epsilon, `v == v` returns
false; and for two vectors of the same scalar type `a == b` equals `b == a`. -/
theorem operator_eq_irrefl_symm {α : Type} [LinearOrderedRing α] (e : α) (h : 0 ≤ e) :
    (∀ v : vector α, v.operator_eq e v = false) ∧
      (∀ a b : vector α, a.operator_eq e b = b.operator_eq e a) := by
  constructor
  · intro v
    unfold vector.operator_eq
    simp only [cast_self, abs_eq, sub_self, abs_zero, gt_iff_lt]
    simp [not_lt.mpr h]
  · intro a b
    unfold vector.operator_eq
    simp only [cast_self, abs_eq, abs_sub_comm a.x b.x, abs_sub_comm a.y b.y]

theorem operator_eq_irrefl_symm_witness :
    (0 : ℚ) ≤ 1 / 1000 ∧
      (vector.mk (3 : ℚ) 4).operator_eq (1 / 1000 : ℚ) (vector.mk (3 : ℚ) 4) = false ∧
      (vector.mk (3 : ℚ) 4).operator_eq (1 / 1000 : ℚ) (vector.mk (0 : ℚ) 0) =
        (vector.mk (0 : ℚ) 0).operator_eq (1 / 1000 : ℚ) (vector.mk (3 : ℚ) 4) :=
  have h : (0 : ℚ) ≤ 1 / 1000 := by norm_num
  ⟨h, (operator_eq_irrefl_symm (1 / 1000 : ℚ) h).1 (vector.mk 3 4),
    (operator_eq_irrefl_symm (1 / 1000 : ℚ) h).2 (vector.mk 3 4) (vector.mk 0 0)⟩

/-! ## Assigning a vector to a point -/

/-- C20: for every point `p` and vector `v`, the assignment `p = v` leaves `p.x` and
`p.y` unchanged; it returns a new point whose components are the components of `v`
converted to the scalar type of `p`: assigning `(37/10, -21/5)` to the integer point
`(1, 2)` leaves `(1, 2)` and returns `(3, -4)`. -/
theorem point_operator_assign_frame :
    (∀ (α β : Type) [StaticCast β α] (p : point α) (v : vector β),
        (p.operator_assign v).1.x = p.x ∧ (p.operator_assign v).1.y = p.y ∧
          (p.operator_assign v).2 = point.mk (StaticCast.cast v.x) (StaticCast.cast v.y)) ∧
      (point.mk (1 : Int) 2).operator_assign (vector.mk (37 / 10 : ℚ) (-21 / 5))
        = (point.mk 1 2, point.mk 3 (-4)) := by
  refine ⟨fun α β _ p v => ⟨rfl, rfl, rfl⟩, ?_⟩
  have h1 : truncate (37 / 10 : ℚ) = 3 := by
    rw [truncate_eq]; norm_num
  have h2 : truncate (-21 / 5 : ℚ) = -4 := by
    rw [truncate_eq, if_neg (by norm_num), Int.ceil_eq_iff]
    norm_num
  show (point.mk (1 : Int) 2, point.mk (truncate (37 / 10 : ℚ)) (truncate (-21 / 5 : ℚ)))
    = (point.mk 1 2, point.mk 3 (-4))
  rw [h1, h2]

end Math2D
